import Mathlib

/-!
Verification of the TrackHS reservation-fetch pipeline
(`TrackHSClient` in the repository's fetch script): cookie-jar updates in
`makeRequest`, the pagination loop of `fetchAllReservations`, security-token
extraction, the login outcome decision, `getApiToken`, the orchestrating
`main`, and `saveReservations` path computation.  Strings manipulated
character-by-character by the source (cookies, paths) are modelled as
`List Char`; JS numbers that the pipeline uses as counters are modelled as
`Nat`.
-/

namespace TrackHS

/-! ## Transport cookie jar (makeRequest, response Set-Cookie handling)

The source stores cookies as a list of strings.  For each `Set-Cookie`
header value `cookie` it computes `cookie.split("=")[0]` (the text before
the first `=`), removes every stored entry `c` with `c.startsWith(name)`,
and appends `cookie.split(";")[0]` (the text before the first `;`). -/

/-- Models `cookie.split("=")[0]`: the characters before the first `=`. -/
def cookieName (c : List Char) : List Char := c.takeWhile (fun x => x != '=')

/-- Models `cookie.split(";")[0]`: the characters before the first `;`. -/
def cookiePair (c : List Char) : List Char := c.takeWhile (fun x => x != ';')

/-- Models one iteration of the `setCookies.forEach` body in `makeRequest`:
filter out stored cookies that start with the new cookie's name, then push
the name=value pair. -/
def applySetCookie (jar : List (List Char)) (c : List Char) : List (List Char) :=
  jar.filter (fun e => !((cookieName c).isPrefixOf e)) ++ [cookiePair c]

/-- Applying a whole sequence of `Set-Cookie` header values in order. -/
def applySetCookies (jar : List (List Char)) (cs : List (List Char)) : List (List Char) :=
  cs.foldl applySetCookie jar

/-- A well-formed `Set-Cookie` value: its name (text before the first `=`)
is a prefix of its name=value pair (text before the first `;`), i.e. no `;`
occurs before the first `=`.  Every real `name=value; attrs` header value
satisfies this. -/
def wfCookie (c : List Char) : Bool := (cookieName c).isPrefixOf (cookiePair c)

/-- The cookie names of the entries stored in a jar. -/
def namesOf (jar : List (List Char)) : List (List Char) := jar.map cookieName

/-- The name=value pair of the most recent cookie in `cs` whose name is `n`. -/
def lastPairFor (cs : List (List Char)) (n : List Char) : Option (List Char) :=
  ((cs.filter (fun c => cookieName c == n)).map cookiePair).getLast?

/-! ## Pagination engine (fetchAllReservations) -/

/-- The fields of a listing response that `fetchAllReservations` reads:
`_embedded.reservations` (absent when the response has no such field),
`total` and `size` (absent fields modelled as `none`). -/
structure ListingResponse (R : Type) where
  embedded : Option (List R)
  total : Option Nat
  size : Option Nat
deriving Repr

/-- JS truthiness of the numeric fields `data.total` / `data.size`:
absent (`undefined`) and `0` are falsy. -/
def truthyNat : Option Nat → Bool
  | none => false
  | some n => !(n == 0)

/-- `Math.ceil(total / size)` for positive integers. -/
def ceilDiv (a b : Nat) : Nat := (a + b - 1) / b

/-- Models `if (data.total && data.size) totalPages = Math.ceil(data.total / data.size)`. -/
def nextTotalPages {R : Type} (data : ListingResponse R) (tp : Nat) : Nat :=
  if truthyNat data.total && truthyNat data.size then
    ceilDiv (data.total.getD 0) (data.size.getD 0)
  else tp

/-- The `do ... while (currentPage <= totalPages)` loop of
`fetchAllReservations`, with an explicit fuel bound (the source loop has no
a-priori bound because the server chooses `total`/`size` on every page).
Returns the accumulated records and the list of requested page numbers, or
`none` if the fuel runs out. -/
def fetchLoop {R : Type} (server : Nat → ListingResponse R) :
    Nat → Nat → Nat → List R → List Nat → Option (List R × List Nat)
  | 0, _, _, _, _ => none
  | fuel + 1, page, tp, acc, reqs =>
    if page + 1 ≤ nextTotalPages (server page) tp then
      fetchLoop server fuel (page + 1) (nextTotalPages (server page) tp)
        (acc ++ (server page).embedded.getD []) (reqs ++ [page])
    else some (acc ++ (server page).embedded.getD [], reqs ++ [page])

/-- `fetchAllReservations`: start at page 1 with `totalPages = 1` and an
empty accumulator. -/
def fetchAllReservations {R : Type} (server : Nat → ListingResponse R) (fuel : Nat) :
    Option (List R × List Nat) :=
  fetchLoop server fuel 1 1 [] []

/-! ## Security-token extraction (extractSecurityToken)

The source tries four case-insensitive regular expressions in order; each is
a sequence of literal characters, character classes, greedy `[^...]*` or
`[^...]+` repetitions, and one capturing group `([^"']+)`.  The model below
is a backtracking matcher with exactly JS semantics for this fragment:
leftmost match position wins, repetitions are greedy and backtrack from the
longest run, matching is case-insensitive. -/

/-- Quantifier of one regex element: exactly one occurrence, or a greedy
unbounded repetition with the given minimum (`0` for `*`, `1` for `+`). -/
inductive RQuant where
  | once : RQuant
  | many : Nat → RQuant
deriving Repr

/-- One element of a regex pattern: a character class (`neg` for `[^...]`)
with a quantifier; `cap` marks the capturing group.  All class characters
are stored lowercase; matching lowercases the subject (the `/i` flag). -/
structure RItem where
  neg : Bool
  cs : List Char
  quant : RQuant
  cap : Bool
deriving Repr

/-- A literal character of the pattern (case-insensitive). -/
def lit (c : Char) : RItem := ⟨false, [c.toLower], RQuant.once, false⟩

/-- A sequence of literal characters. -/
def lits (s : String) : List RItem := s.toList.map lit

/-- A positive character class matched once, e.g. `["']`. -/
def cls (cs : List Char) : RItem := ⟨false, cs, RQuant.once, false⟩

/-- A greedy negated star, e.g. `[^>]*`. -/
def nstar (cs : List Char) : RItem := ⟨true, cs, RQuant.many 0, false⟩

/-- The capturing group `([^cs]+)` (greedy plus). -/
def capPlusNot (cs : List Char) : RItem := ⟨true, cs, RQuant.many 1, true⟩

/-- `\s+` (ASCII whitespace, which covers the markup this tool parses). -/
def wsPlus : RItem := ⟨false, [' ', '\t', '\n', '\r', '\x0b', '\x0c'], RQuant.many 1, false⟩

/-- Does character `c` match the class of item `it` (case-insensitively)? -/
def cmatch (it : RItem) (c : Char) : Bool :=
  let m := it.cs.contains c.toLower
  if it.neg then !m else m

/-- Length of the longest prefix of `s` whose characters all match `it`. -/
def maxRun (it : RItem) : List Char → Nat
  | [] => 0
  | c :: s => if cmatch it c then maxRun it s + 1 else 0

/-- The repetition counts a greedy quantifier tries, longest first:
`[maxK, maxK-1, ..., m]` (empty if `maxK < m`). -/
def backtrackKs (m maxK : Nat) : List Nat := (List.range' m (maxK + 1 - m)).reverse

/-- Match the pattern `items` against a prefix of `s` (the remainder may be
anything, as for an unanchored regex), returning the text captured by the
capturing group of the first successful alternative in greedy backtracking
order — exactly the JS engine's choice for these patterns. -/
def reMatch : List RItem → List Char → Option (List Char) → Option (List Char)
  | [], _, cap => some (cap.getD [])
  | it :: rest, s, cap =>
    match it.quant with
    | RQuant.once =>
      match s with
      | [] => none
      | c :: s' => if cmatch it c then reMatch rest s' cap else none
    | RQuant.many m =>
      (backtrackKs m (maxRun it s)).findSome? fun k =>
        reMatch rest (s.drop k) (if it.cap then some (s.take k) else cap)

/-- Unanchored leftmost search: try every start position left to right. -/
def reSearch (p : List RItem) : List Char → Option (List Char)
  | [] => reMatch p [] none
  | c :: s' =>
    match reMatch p (c :: s') none with
    | some r => some r
    | none => reSearch p s'

/-- The quote class `["']`. -/
def quoteCls : List Char := ['"', '\'']

/-- Pattern 1: an input tag with `name="security"` before `value="..."`. -/
def pat1 : List RItem :=
  lits "<input" ++ [nstar ['>']] ++ lits "name=" ++ [cls quoteCls] ++
    lits "security" ++ [cls quoteCls] ++ [nstar ['>']] ++ lits "value=" ++
    [cls quoteCls] ++ [capPlusNot quoteCls] ++ [cls quoteCls]

/-- Pattern 2: an input tag with `value="..."` before `name="security"`. -/
def pat2 : List RItem :=
  lits "<input" ++ [nstar ['>']] ++ lits "value=" ++ [cls quoteCls] ++
    [capPlusNot quoteCls] ++ [cls quoteCls] ++ [nstar ['>']] ++
    lits "name=" ++ [cls quoteCls] ++ lits "security" ++ [cls quoteCls]

/-- Pattern 3: `name="security"` then `value="..."`, no tag required. -/
def pat3 : List RItem :=
  lits "name=" ++ [cls quoteCls] ++ lits "security" ++ [cls quoteCls] ++
    [nstar ['>']] ++ lits "value=" ++ [cls quoteCls] ++
    [capPlusNot quoteCls] ++ [cls quoteCls]

/-- Pattern 4: `security"` then whitespace then `value="..."`. -/
def pat4 : List RItem :=
  lits "security" ++ [cls quoteCls] ++ [wsPlus] ++ lits "value=" ++
    [cls quoteCls] ++ [capPlusNot quoteCls] ++ [cls quoteCls]

/-- The ordered pattern candidates tried by `extractSecurityToken`. -/
def patterns : List (List RItem) := [pat1, pat2, pat3, pat4]

/-- `extractSecurityToken`: the first pattern with a (necessarily nonempty)
captured group wins; if none matches the function throws. -/
def extractSecurityToken (html : String) : Except String String :=
  match patterns.findSome? (fun p => reSearch p html.toList) with
  | some t => Except.ok (String.mk t)
  | none => Except.error "Could not extract security token from login page"

/-! ## Login outcome (login, step 2: the credential POST) -/

/-- The decoded body of a response: either raw text (HTML) or parsed
structured data (the `makeRequest` JSON fallback is a discriminated
outcome). -/
inductive BodyData where
  | strB : String → BodyData
  | jsonB : BodyData
deriving Repr, DecidableEq

/-- The parts of the login POST response that `login` inspects. -/
structure PostResponse where
  status : Nat
  location : Option String
  body : BodyData
deriving Repr, DecidableEq

/-- Outcome of `login` after the POST: return `true`, throw the
invalid-credentials error, or throw the status-naming error. -/
inductive LoginResult where
  | success : LoginResult
  | invalidCreds : LoginResult
  | statusError : Nat → LoginResult
deriving Repr, DecidableEq

/-- Is `needle` a contiguous sublist of `hay`? -/
def isInfixB (needle : List Char) : List Char → Bool
  | [] => needle.isEmpty
  | c :: t => needle.isPrefixOf (c :: t) || isInfixB needle t

/-- Models JS `hay.includes(needle)` (case-sensitive substring test). -/
def containsSub (hay needle : String) : Bool := isInfixB needle.toList hay.toList

/-- The 302 branch guard: a redirect whose `Location` header is present
(and truthy) and contains one of the two accepted path fragments. -/
def successCond (r : PostResponse) : Bool :=
  r.status == 302 &&
    (match r.location with
     | some loc => containsSub loc "/owner/dashboard" || containsSub loc "/owner/"
     | none => false)

/-- The 200 branch guard: a string body containing one of the three
markers of a re-displayed login page. -/
def invalidCond (r : PostResponse) : Bool :=
  r.status == 200 &&
    (match r.body with
     | BodyData.strB s =>
         containsSub s "Invalid" || containsSub s "incorrect" || containsSub s "login"
     | BodyData.jsonB => false)

/-- The decision chain at the end of `login`. -/
def loginOutcome (r : PostResponse) : LoginResult :=
  if successCond r then LoginResult.success
  else if invalidCond r then LoginResult.invalidCreds
  else LoginResult.statusError r.status

/-! ## Token acquirer (getApiToken) and session state -/

/-- The mutable fields of `TrackHSClient` that requests read: the cookie
jar and the bearer token (`null` until acquired). -/
structure ClientState where
  cookies : List String
  token : Option String
deriving Repr, DecidableEq

/-- The fields of the token-endpoint response body that `getApiToken`
reads (`expiresAt` is only printed, never stored). -/
structure TokenResponse where
  status : Nat
  success : Bool
  token : Option String
  expiresAt : Option String
deriving Repr, DecidableEq

/-- JS truthiness of `response.data.token`: absent and `""` are falsy. -/
def tokenTruthy : Option String → Bool
  | none => false
  | some s => s != ""

/-- `getApiToken`: non-200 status throws; a falsy success flag or falsy
token throws; otherwise the token is stored on the client and returned. -/
def getApiToken (st : ClientState) (r : TokenResponse) :
    Except String (String × ClientState) :=
  if r.status ≠ 200 then
    Except.error ("Failed to get API token. Status: " ++ toString r.status)
  else if !(r.success && tokenTruthy r.token) then
    Except.error "API token request failed or token not found in response"
  else Except.ok (r.token.getD "", { st with token := r.token })

/-- The `authorization` default header of `makeRequest`: present exactly
when `this.token` is truthy (a nonempty string). -/
def authHeader (st : ClientState) : Option String :=
  match st.token with
  | none => none
  | some t => if t != "" then some ("Bearer " ++ t) else none

/-! ## Fetch orchestrator (main)

One run of `main` after argument parsing: construct the client (throws if
the domain is missing), authenticate via a supplied session cookie or via
`login`, call `getApiToken`, then `fetchAllReservations`.  The model records
which kinds of request are issued.  The mocked responses carry no
`Set-Cookie` headers (as in the end-to-end scenario this model serves), so
the cookie jar is not mutated after authentication; `Set-Cookie` handling
is modelled separately by `applySetCookie`. -/

/-- The authentication-relevant configuration `main` reads. -/
structure OrchConfig where
  domain : Option String
  username : Option String
  password : Option String
  sessionCookie : Option String
deriving Repr

/-- The kinds of request the pipeline can issue. -/
inductive ReqKind where
  | loginPage : ReqKind
  | loginPost : ReqKind
  | apiToken : ReqKind
  | listing : Nat → ReqKind
deriving Repr, DecidableEq

/-- The remote side of one run: the login-page GET response, the login
POST response, the token-endpoint response, and a listing response per
page number. -/
structure Server (R : Type) where
  loginPageStatus : Nat
  loginPageHtml : String
  loginPostResp : PostResponse
  tokenResp : TokenResponse
  listing : Nat → ListingResponse R

/-- `login`: GET the login page (throws on non-200), extract the security
token (its error propagates), POST the credentials, decide the outcome.
Returns the requests issued alongside the result. -/
def loginM {R : Type} (sv : Server R) : Except String Unit × List ReqKind :=
  if sv.loginPageStatus ≠ 200 then
    (Except.error ("Failed to fetch login page. Status: " ++ toString sv.loginPageStatus),
      [ReqKind.loginPage])
  else
    match extractSecurityToken sv.loginPageHtml with
    | Except.error e => (Except.error e, [ReqKind.loginPage])
    | Except.ok _ =>
      match loginOutcome sv.loginPostResp with
      | LoginResult.success => (Except.ok (), [ReqKind.loginPage, ReqKind.loginPost])
      | LoginResult.invalidCreds =>
          (Except.error "Login failed: Invalid username or password",
            [ReqKind.loginPage, ReqKind.loginPost])
      | LoginResult.statusError n =>
          (Except.error ("Login failed with status " ++ toString n),
            [ReqKind.loginPage, ReqKind.loginPost])

/-- The tail of the run shared by both authentication paths: `getApiToken`
then `fetchAllReservations`.  `none` only when the pagination fuel runs
out; otherwise the result, the full request log, and the final client
state. -/
def orchestrateFrom {R : Type} (st : ClientState) (reqs0 : List ReqKind)
    (sv : Server R) (fuel : Nat) :
    Option (Except String (List R) × List ReqKind × ClientState) :=
  match getApiToken st sv.tokenResp with
  | Except.error e => some (Except.error e, reqs0 ++ [ReqKind.apiToken], st)
  | Except.ok (_, st') =>
    match fetchAllReservations sv.listing fuel with
    | none => none
    | some (recs, pages) =>
        some (Except.ok recs,
          reqs0 ++ [ReqKind.apiToken] ++ pages.map ReqKind.listing, st')

/-- One run of `main`: constructor domain check, then the session-cookie /
login / missing-credentials branch, then the shared tail. -/
def orchestrate {R : Type} (cfg : OrchConfig) (sv : Server R) (fuel : Nat) :
    Option (Except String (List R) × List ReqKind × ClientState) :=
  match cfg.domain with
  | none =>
      some (Except.error
        "TrackHS domain is required. Set TRACKHS_DOMAIN in .env or pass --domain",
        [], ⟨[], none⟩)
  | some _ =>
    match cfg.sessionCookie with
    | some ck => orchestrateFrom ⟨[ck], none⟩ [] sv fuel
    | none =>
      match cfg.username, cfg.password with
      | some _, some _ =>
        match loginM sv with
        | (Except.ok _, lreqs) => orchestrateFrom ⟨[], none⟩ lreqs sv fuel
        | (Except.error e, lreqs) => some (Except.error e, lreqs, ⟨[], none⟩)
      | _, _ => some (Except.error "Authentication required", [], ⟨[], none⟩)

/-! ## Saving (saveReservations path computation)

`saveReservations` computes `path.join(outputDir, path.basename(filename))`
and writes there (creating the directory first).  `basename` and the join
of a normalized directory with a slash-free base are modelled below on
character lists. -/

/-- Drop trailing `/` characters (the first scan of Node's `basename`). -/
def stripTrailingSlashes (p : List Char) : List Char :=
  (p.reverse.dropWhile (fun c => c == '/')).reverse

/-- Node `path.basename` (POSIX, no extension argument): drop trailing
slashes, then keep the characters after the last remaining slash; a path
consisting only of slashes yields the empty string. -/
def basename (p : List Char) : List Char :=
  ((stripTrailingSlashes p).reverse.takeWhile (fun c => c != '/')).reverse

/-- Node `path.join(dir, base)` for a normalized, nonempty `dir` and a
slash-free `base` (the only shapes `saveReservations` produces):
`join(dir, "") = dir` and otherwise `dir ++ "/" ++ base`. -/
def joinPath (dir base : List Char) : List Char :=
  if base = [] then dir else dir ++ '/' :: base

/-- The file path `saveReservations` writes to. -/
def savePath (outputDir filename : List Char) : List Char :=
  joinPath outputDir (basename filename)

/-! ## Theorems -/

/-- One unfolding of the pagination loop. -/
lemma fetchLoop_step {R : Type} (server : Nat → ListingResponse R)
    (f page tp : Nat) (acc : List R) (reqs : List Nat) :
    fetchLoop server (f + 1) page tp acc reqs =
      if page + 1 ≤ nextTotalPages (server page) tp then
        fetchLoop server f (page + 1) (nextTotalPages (server page) tp)
          (acc ++ (server page).embedded.getD []) (reqs ++ [page])
      else some (acc ++ (server page).embedded.getD [], reqs ++ [page]) := rfl

/-- Claim C2: when every page reports `total = 250` and `size = 100`, the
pagination engine computes `totalPages = 3`, requests exactly pages 1, 2, 3
in order, terminates, and returns the pages' embedded record lists
concatenated in page order. -/
theorem c2_pagination {R : Type} (server : Nat → ListingResponse R)
    (recs : Nat → List R)
    (h : ∀ p, server p = ⟨some (recs p), some 250, some 100⟩) (f : Nat) :
    fetchAllReservations server (f + 3) =
      some (recs 1 ++ recs 2 ++ recs 3, [1, 2, 3]) := by
  unfold fetchAllReservations
  rw [show f + 3 = f + 2 + 1 from rfl, fetchLoop_step, h 1]
  norm_num [nextTotalPages, truthyNat, ceilDiv]
  rw [show f + 2 = f + 1 + 1 from rfl, fetchLoop_step, h 2]
  norm_num [nextTotalPages, truthyNat, ceilDiv]
  rw [fetchLoop_step, h 3]
  norm_num [nextTotalPages, truthyNat, ceilDiv]

/-- Witness for C2 at a concrete three-page server. -/
theorem c2_witness :
    fetchAllReservations
        (fun p => ({ embedded := some [p], total := some 250, size := some 100 } :
          ListingResponse Nat)) 3 =
      some ([1] ++ [2] ++ [3], [1, 2, 3]) :=
  c2_pagination _ (fun p => [p]) (fun _ => rfl) 0

/-- Claim C5: when the listing response has no `total` and no `size` field,
`totalPages` keeps its initial value 1, exactly one request (page 1) is
issued, and the loop terminates returning that response's embedded
records. -/
theorem c5_no_total_fields {R : Type} (server : Nat → ListingResponse R)
    (f : Nat) (h : (server 1).total = none ∧ (server 1).size = none) :
    fetchAllReservations server (f + 1) =
        some ((server 1).embedded.getD [], [1])
      ∧ nextTotalPages (server 1) 1 = 1 := by
  have hnt : nextTotalPages (server 1) 1 = 1 := by
    simp [nextTotalPages, h.1, truthyNat]
  refine ⟨?_, hnt⟩
  unfold fetchAllReservations
  rw [fetchLoop_step, hnt]
  norm_num

/-- Witness for C5 at a concrete server omitting `total` and `size`. -/
theorem c5_witness :
    fetchAllReservations
        (fun _ => ({ embedded := some [7], total := none, size := none } :
          ListingResponse Nat)) 1 =
      some ([7], [1]) :=
  (c5_no_total_fields _ 0 ⟨rfl, rfl⟩).1

/-- Claim C9: a response reporting `total = 0` (or `size = 0`) leaves
`totalPages` unchanged, exactly as if the fields were omitted — the
recomputation fires only when both fields are truthy — so the loop still
issues exactly one request. -/
theorem c9_zero_total {R : Type} (server : Nat → ListingResponse R)
    (f : Nat) (h : (server 1).total = some 0 ∨ (server 1).size = some 0) :
    (∀ (data : ListingResponse R) (tp : Nat),
        data.total = some 0 ∨ data.size = some 0 → nextTotalPages data tp = tp)
      ∧ fetchAllReservations server (f + 1) =
          some ((server 1).embedded.getD [], [1]) := by
  have hstay : ∀ (data : ListingResponse R) (tp : Nat),
      data.total = some 0 ∨ data.size = some 0 → nextTotalPages data tp = tp := by
    intro data tp hd
    rcases hd with hd | hd <;> simp [nextTotalPages, hd, truthyNat]
  refine ⟨hstay, ?_⟩
  unfold fetchAllReservations
  rw [fetchLoop_step, hstay (server 1) 1 h]
  norm_num

/-- Witness for C9 at a concrete server reporting `total = 0`. -/
theorem c9_witness :
    fetchAllReservations
        (fun _ => ({ embedded := some [7], total := some 0, size := some 100 } :
          ListingResponse Nat)) 1 =
      some ([7], [1]) :=
  (c9_zero_total _ 0 (Or.inl rfl)).2

/-- Every element kept by `takeWhile` satisfies the predicate. -/
lemma mem_takeWhile_true {p : Char → Bool} {l : List Char} {a : Char}
    (h : a ∈ l.takeWhile p) : p a = true := List.mem_takeWhile_imp h

/-- If some element of `xs` falsifies `p`, `dropWhile` never reaches `ys`. -/
lemma dropWhile_append_of_exists (p : Char → Bool) (xs ys : List Char)
    (h : ∃ x ∈ xs, p x = false) :
    (xs ++ ys).dropWhile p = xs.dropWhile p ++ ys := by
  induction xs with
  | nil => rcases h with ⟨x, hx, _⟩; simp at hx
  | cons a xs ih =>
    by_cases ha : p a
    · rcases h with ⟨x, hx, hpx⟩
      rcases List.mem_cons.1 hx with rfl | hx
      · rw [ha] at hpx; cases hpx
      · simp only [List.cons_append, List.dropWhile_cons, ha, if_true]
        exact ih ⟨x, hx, hpx⟩
    · simp [List.dropWhile_cons, ha]

/-- `takeWhile` stops at the boundary element when it falsifies `p`. -/
lemma takeWhile_append_stop (p : Char → Bool) (b : Char) (xs ys : List Char)
    (hb : p b = false) :
    (xs ++ b :: ys).takeWhile p = xs.takeWhile p := by
  induction xs with
  | nil => simp [List.takeWhile_cons, hb]
  | cons a xs ih =>
    by_cases ha : p a
    · simp only [List.cons_append, List.takeWhile_cons, ha, if_true, ih]
    · simp [List.takeWhile_cons, ha]

/-- Claim C10: `saveReservations` writes at
`join(outputDir, basename(filename))`; `basename` contains no separator,
prefixed directory components are discarded, and whenever the base is
nonempty the path is directly inside the output directory. -/
theorem c10_save_path :
    (∀ fn : List Char, '/' ∉ basename fn)
      ∧ (∀ d f : List Char, (∃ c ∈ f, c ≠ '/') →
          basename (d ++ '/' :: f) = basename f)
      ∧ (∀ dir fn : List Char, basename fn ≠ [] →
          savePath dir fn = dir ++ '/' :: basename fn) := by
  refine ⟨?_, ?_, ?_⟩
  · intro fn hmem
    rw [basename] at hmem
    rw [List.mem_reverse] at hmem
    have := mem_takeWhile_true hmem
    simp at this
  · intro d f hf
    rcases hf with ⟨c, hc, hcne⟩
    have hrev : ∃ x ∈ f.reverse, ((x == '/') : Bool) = false := by
      refine ⟨c, List.mem_reverse.2 hc, ?_⟩
      simp [hcne]
    simp only [basename, stripTrailingSlashes]
    simp only [List.reverse_append, List.reverse_cons, List.append_assoc,
      List.singleton_append, List.reverse_reverse]
    rw [dropWhile_append_of_exists (fun x => x == '/') f.reverse
      ('/' :: d.reverse) hrev]
    rw [takeWhile_append_stop (fun x => x != '/') '/'
      (List.dropWhile (fun x => x == '/') f.reverse) d.reverse (by simp)]
  · intro dir fn hne
    rw [savePath, joinPath, if_neg hne]

/-- Witness for C10 at concrete paths. -/
theorem c10_witness :
    ('/' ∉ basename ("a/b.json").toList)
      ∧ basename (("a").toList ++ '/' :: ("b.json").toList) =
          basename ("b.json").toList
      ∧ savePath ("out").toList ("b.json").toList =
          ("out").toList ++ '/' :: basename ("b.json").toList :=
  ⟨c10_save_path.1 _,
   c10_save_path.2.1 ("a").toList ("b.json").toList ⟨'b', by decide, by decide⟩,
   c10_save_path.2.2 ("out").toList ("b.json").toList (by decide)⟩

/-- The text before the first `=` is always a string prefix of the whole. -/
lemma cookieName_isPrefixOf_self (e : List Char) :
    (cookieName e).isPrefixOf e = true := by
  rw [cookieName]
  induction e with
  | nil => rfl
  | cons a l ih =>
    by_cases ha : a = '='
    · simp [List.takeWhile_cons, ha, List.isPrefixOf]
    · simp [List.takeWhile_cons, ha, List.isPrefixOf, ih]

/-- For a well-formed cookie the name of its stored pair is its own name. -/
lemma cookieName_cookiePair {c : List Char} (h : wfCookie c = true) :
    cookieName (cookiePair c) = cookieName c := by
  induction c with
  | nil => rfl
  | cons a l ih =>
    by_cases hEq : a = '='
    · simp [cookieName, cookiePair, List.takeWhile_cons, hEq]
    · by_cases hSemi : a = ';'
      · exfalso
        rw [wfCookie, cookieName, cookiePair] at h
        simp [List.takeWhile_cons, hEq, hSemi, List.isPrefixOf] at h
      · have h' : wfCookie l = true := by
          rw [wfCookie, cookieName, cookiePair] at h
          simp [List.takeWhile_cons, hEq, hSemi] at h
          rw [wfCookie, cookieName, cookiePair]
          exact List.isPrefixOf_iff_prefix.2 h
        have hl := ih h'
        simp only [cookieName, cookiePair] at hl ⊢
        simp [List.takeWhile_cons, hEq, hSemi, hl]

/-- Applying a well-formed cookie to a jar with pairwise-distinct names
keeps the names pairwise distinct. -/
lemma namesOf_nodup_step {jar : List (List Char)} {c : List Char}
    (hj : (namesOf jar).Nodup) (hc : wfCookie c = true) :
    (namesOf (applySetCookie jar c)).Nodup := by
  rw [applySetCookie, namesOf, List.map_append, List.nodup_append]
  refine ⟨?_, by simp, ?_⟩
  · have hsub : List.Sublist
        (jar.filter fun e => !((cookieName c).isPrefixOf e)) jar :=
      List.filter_sublist jar
    exact ((hsub.map cookieName).nodup) hj
  · intro n hn₁ hn₂
    simp only [List.map_cons, List.map_nil, List.mem_singleton] at hn₂
    subst hn₂
    rcases List.mem_map.1 hn₁ with ⟨e, he, hne⟩
    rcases List.mem_filter.1 he with ⟨_, hkeep⟩
    rw [cookieName_cookiePair hc] at hne
    rw [← hne] at hkeep
    simp [cookieName_isPrefixOf_self] at hkeep

/-- Names stay pairwise distinct over a whole well-formed sequence. -/
lemma namesOf_nodup_fold (cs : List (List Char)) :
    ∀ jar : List (List Char), (namesOf jar).Nodup →
      (∀ c ∈ cs, wfCookie c = true) →
      (namesOf (applySetCookies jar cs)).Nodup := by
  induction cs with
  | nil => intro jar hj _; simpa [applySetCookies] using hj
  | cons c cs ih =>
    intro jar hj hwf
    rw [applySetCookies, List.foldl_cons]
    exact ih (applySetCookie jar c)
      (namesOf_nodup_step hj (hwf c (by simp)))
      (fun d hd => hwf d (by simp [hd]))

/-- Every entry of the jar built from a well-formed sequence is the stored
pair of the most recent cookie of its name. -/
lemma lastPair_fold (cs : List (List Char)) :
    (∀ c ∈ cs, wfCookie c = true) →
    ∀ e ∈ applySetCookies [] cs, lastPairFor cs (cookieName e) = some e := by
  induction cs using List.reverseRecOn with
  | nil => intro _ e he; simp [applySetCookies] at he
  | append_singleton l a ih =>
    intro hwf e he
    have hwl : ∀ c ∈ l, wfCookie c = true := fun c hc => hwf c (by simp [hc])
    have hwa : wfCookie a = true := hwf a (by simp)
    rw [applySetCookies, List.foldl_append, List.foldl_cons, List.foldl_nil] at he
    rw [applySetCookie] at he
    rcases List.mem_append.1 he with hin | hlast
    · rcases List.mem_filter.1 hin with ⟨hprev, hkeep⟩
      have hIH := ih hwl e (by rw [applySetCookies]; exact hprev)
      have hne : (cookieName a == cookieName e) = false := by
        by_cases hb : cookieName a = cookieName e
        · exfalso
          rw [hb] at hkeep
          simp [cookieName_isPrefixOf_self] at hkeep
        · simp [hb]
      have hfl : List.filter (fun c => cookieName c == cookieName e) (l ++ [a]) =
          List.filter (fun c => cookieName c == cookieName e) l := by
        rw [List.filter_append]
        simp [List.filter_cons, hne]
      rw [lastPairFor, hfl]
      rw [lastPairFor] at hIH
      exact hIH
    · simp only [List.mem_singleton] at hlast
      subst hlast
      have hfa : List.filter
            (fun c => cookieName c == cookieName a) (l ++ [a]) =
          List.filter (fun c => cookieName c == cookieName a) l ++ [a] := by
        rw [List.filter_append]
        simp [List.filter_cons]
      rw [cookieName_cookiePair hwa, lastPairFor, hfa, List.map_append,
        List.map_cons, List.map_nil]
      exact List.getLast?_concat _

/-- Applying the same well-formed cookie twice equals applying it once. -/
lemma applySetCookie_idem (jar : List (List Char)) (c : List Char)
    (h : wfCookie c = true) :
    applySetCookie (applySetCookie jar c) c = applySetCookie jar c := by
  have hpair : ((cookieName c).isPrefixOf (cookiePair c)) = true := h
  rw [applySetCookie, applySetCookie, List.filter_append]
  rw [List.filter_filter]
  simp [List.filter_cons, hpair, Bool.and_self]

/-- Counterexample for C1: from an empty jar, `Set-Cookie: ab=2` then
`Set-Cookie: a=1` leaves only `a=1` — the entry for the different,
unrelated cookie name `ab` was removed by the update for `a`, because the
source filters with `startsWith` on the whole entry. -/
theorem c1_counterexample :
    applySetCookies [] [("ab=2").toList, ("a=1").toList] = [("a=1").toList]
      ∧ ("ab=2").toList ∈ applySetCookies [] [("ab=2").toList]
      ∧ cookieName ("ab=2").toList ≠ cookieName ("a=1").toList := by decide

/-- Claim C1 (amended): for sequences of well-formed `Set-Cookie` values (any
`;` comes after the first `=`), the jar keeps at most one entry per cookie
name, each entry is the pair of the most recent `Set-Cookie` of its name
(last-write-wins), and an entry is removed only by a `Set-Cookie` whose
cookie name is a string prefix of that entry. -/
theorem c1_amended (cs : List (List Char))
    (hwf : ∀ c ∈ cs, wfCookie c = true) :
    (namesOf (applySetCookies [] cs)).Nodup
      ∧ (∀ e ∈ applySetCookies [] cs, lastPairFor cs (cookieName e) = some e)
      ∧ (∀ (jar : List (List Char)) (c e : List Char),
          e ∈ jar → e ∉ applySetCookie jar c →
          (cookieName c).isPrefixOf e = true) :=
  ⟨namesOf_nodup_fold cs [] (by simp [namesOf]) hwf,
   lastPair_fold cs hwf,
   fun jar c e hin hout => by
     cases hb : (cookieName c).isPrefixOf e with
     | true => rfl
     | false =>
       refine absurd ?_ hout
       rw [applySetCookie]
       exact List.mem_append.2 (Or.inl (List.mem_filter.2 ⟨hin, by simp [hb]⟩))⟩

/-- Witness for C1 at a concrete well-formed cookie sequence. -/
theorem c1_witness :
    (namesOf (applySetCookies []
        [("a=1").toList, ("b=2").toList, ("a=3").toList])).Nodup
      ∧ lastPairFor [("a=1").toList, ("b=2").toList, ("a=3").toList]
          (cookieName ("a=3").toList) = some ("a=3").toList :=
  ⟨(c1_amended [("a=1").toList, ("b=2").toList, ("a=3").toList] (by decide)).1,
   (c1_amended [("a=1").toList, ("b=2").toList, ("a=3").toList] (by decide)).2.1
     ("a=3").toList (by decide)⟩

/-- Counterexample for C8: the malformed value `a;b=c` (a `;` before the first
`=`) is not idempotent — the second application duplicates the entry `a`,
so cookie names are no longer unique either. -/
theorem c8_counterexample :
    applySetCookie (applySetCookie [] ("a;b=c").toList) ("a;b=c").toList ≠
        applySetCookie [] ("a;b=c").toList
      ∧ ¬ (namesOf (applySetCookie (applySetCookie [] ("a;b=c").toList)
            ("a;b=c").toList)).Nodup := by decide

/-- Claim C8 (amended): for a well-formed `Set-Cookie` value (any `;` after the
first `=`) applying it twice in succession equals applying it once, on any
jar; and every application preserves uniqueness of cookie names. -/
theorem c8_amended (jar : List (List Char)) (c : List Char)
    (h : wfCookie c = true) :
    applySetCookie (applySetCookie jar c) c = applySetCookie jar c
      ∧ ((namesOf jar).Nodup → (namesOf (applySetCookie jar c)).Nodup) :=
  ⟨applySetCookie_idem jar c h, fun hj => namesOf_nodup_step hj h⟩

/-- Witness for C8 at a concrete well-formed cookie. -/
theorem c8_witness :
    applySetCookie (applySetCookie [] ("sid=1").toList) ("sid=1").toList =
      applySetCookie [] ("sid=1").toList :=
  (c8_amended [] ("sid=1").toList (by decide)).1

/-- Counterexample for C3: a 200 response whose body contains `incorrect` but
not `Invalid` is not "every other outcome": the code throws the
invalid-credentials error, not the status-naming error the claim
prescribes. -/
theorem c3_counterexample :
    loginOutcome ⟨200, none, BodyData.strB "Your password is incorrect"⟩ =
        LoginResult.invalidCreds
      ∧ containsSub "Your password is incorrect" "Invalid" = false
      ∧ LoginResult.invalidCreds ≠ LoginResult.statusError 200 := by decide

/-- Claim C3 (amended): a 302 response whose `Location` contains
`/owner/dashboard` or `/owner/` succeeds; a 200 response whose string body
contains `Invalid`, `incorrect`, or `login` fails with the
invalid-credentials error; every remaining outcome fails with the error
naming the response status. -/
theorem c3_amended (r : PostResponse) :
    (∀ loc, r.status = 302 → r.location = some loc →
        (containsSub loc "/owner/dashboard" = true ∨
          containsSub loc "/owner/" = true) →
        loginOutcome r = LoginResult.success)
      ∧ (∀ s, r.status = 200 → r.body = BodyData.strB s →
          (containsSub s "Invalid" = true ∨ containsSub s "incorrect" = true ∨
            containsSub s "login" = true) →
          loginOutcome r = LoginResult.invalidCreds)
      ∧ (successCond r = false → invalidCond r = false →
          loginOutcome r = LoginResult.statusError r.status) := by
  refine ⟨?_, ?_, ?_⟩
  · intro loc h302 hloc hc
    have hs : successCond r = true := by
      rw [successCond, h302, hloc]
      rcases hc with hc | hc <;> simp [hc]
    rw [loginOutcome, hs]
    simp
  · intro s h200 hbody hc
    have hs : successCond r = false := by
      rw [successCond, h200]
      simp
    have hi : invalidCond r = true := by
      rw [invalidCond, h200, hbody]
      rcases hc with hc | hc | hc <;> simp [hc]
    rw [loginOutcome, hs, hi]
    simp
  · intro hs hi
    rw [loginOutcome, hs, hi]
    simp

/-- Witness for C3 at the three concrete outcomes. -/
theorem c3_witness :
    loginOutcome ⟨302, some "/owner/dashboard/", BodyData.jsonB⟩ =
        LoginResult.success
      ∧ loginOutcome ⟨200, none, BodyData.strB "Invalid"⟩ =
          LoginResult.invalidCreds
      ∧ loginOutcome ⟨500, none, BodyData.jsonB⟩ =
          LoginResult.statusError 500 :=
  ⟨(c3_amended _).1 "/owner/dashboard/" rfl rfl (Or.inl (by decide)),
   (c3_amended _).2.1 "Invalid" rfl rfl (Or.inl (by decide)),
   (c3_amended _).2.2 (by decide) (by decide)⟩

/-- Claim C4: on the claim's hidden-input HTML, `extractSecurityToken` returns
`abc123`; when no pattern candidate matches anywhere it throws the
could-not-extract error; and a match of the first candidate determines the
result. -/
theorem c4_token_extraction :
    extractSecurityToken
        "<input type=\"hidden\" name=\"security\" value=\"abc123\">" =
        Except.ok "abc123"
      ∧ (∀ html, (∀ p ∈ patterns, reSearch p html.toList = none) →
          extractSecurityToken html =
            Except.error "Could not extract security token from login page")
      ∧ (∀ html t, reSearch pat1 html.toList = some t →
          extractSecurityToken html = Except.ok (String.mk t)) := by
  refine ⟨rfl, ?_, ?_⟩
  · intro html hnone
    rw [extractSecurityToken]
    rw [List.findSome?_eq_none_iff.2 hnone]
  · intro html t h1
    rw [extractSecurityToken, patterns, List.findSome?_cons]
    rw [h1]

/-- Witness for C4: the error case at pattern-free HTML and the
first-candidate case at the claim's HTML. -/
theorem c4_witness :
    extractSecurityToken "no token here" =
        Except.error "Could not extract security token from login page"
      ∧ extractSecurityToken
          "<input name=\"security\" value=\"tok\">" = Except.ok (String.mk "tok".toList) :=
  ⟨c4_token_extraction.2.1 "no token here" (by decide),
   c4_token_extraction.2.2 "<input name=\"security\" value=\"tok\">"
     ("tok").toList (by decide)⟩

/-- Counterexample for C6: a 200 response with a truthy success flag and a
present-but-empty token field still throws (the source tests JS
truthiness, not mere presence), contradicting the claimed
"fails iff status, success flag, or token absent" characterisation. -/
theorem c6_counterexample :
    getApiToken ⟨[], none⟩ ⟨200, true, some "", none⟩ =
        Except.error "API token request failed or token not found in response"
      ∧ (200 : Nat) = 200 ∧ (true = true)
      ∧ (some "" : Option String) ≠ none := by
  refine ⟨rfl, rfl, rfl, by simp⟩

/-- Claim C6 (amended): `getApiToken` fails iff the status is not 200, or the
success flag is falsy, or the token field is absent or empty; on success
it returns the token, stores it in the session state (cookies untouched),
and the `authorization: Bearer` header is then present; the reported
expiry does not influence the outcome. -/
theorem c6_amended (st : ClientState) (r : TokenResponse) :
    ((∃ e, getApiToken st r = Except.error e) ↔
        (r.status ≠ 200 ∨ r.success = false ∨ r.token = none ∨
          r.token = some ""))
      ∧ (∀ t st2, getApiToken st r = Except.ok (t, st2) →
          st2.token = some t ∧ t ≠ "" ∧
            authHeader st2 = some ("Bearer " ++ t) ∧ st2.cookies = st.cookies)
      ∧ (∀ e2, getApiToken st { r with expiresAt := e2 } = getApiToken st r) := by
  obtain ⟨status, success, token, expiresAt⟩ := r
  refine ⟨?_, ?_, fun e2 => rfl⟩
  · by_cases hst : status = 200
    · subst hst
      cases success with
      | false => simp [getApiToken, tokenTruthy]
      | true =>
        cases token with
        | none => simp [getApiToken, tokenTruthy]
        | some s =>
          by_cases hs : s = ""
          · subst hs
            simp [getApiToken, tokenTruthy]
          · simp [getApiToken, tokenTruthy, hs]
    · simp [getApiToken, hst]
  · intro t st2 hok
    rw [getApiToken] at hok
    by_cases hst : status = 200
    · subst hst
      rw [if_neg (by simp)] at hok
      cases htr : (success && tokenTruthy token) with
      | true =>
        rw [if_neg (by simp [htr])] at hok
        cases token with
        | none => simp [tokenTruthy] at htr
        | some s =>
          have hs : s ≠ "" := by
            intro hcon
            subst hcon
            simp [tokenTruthy] at htr
          simp only [Option.getD_some, Except.ok.injEq, Prod.mk.injEq] at hok
          obtain ⟨rfl, rfl⟩ := hok
          refine ⟨rfl, hs, ?_, rfl⟩
          simp [authHeader, hs]
      | false =>
        rw [if_pos (by simp [htr])] at hok
        cases hok
    · rw [if_pos hst] at hok
      cases hok

/-- Witness for C6 at a concrete failing and a concrete succeeding
response. -/
theorem c6_witness :
    ((∃ e, getApiToken ⟨[], none⟩ ⟨403, true, some "tok", none⟩ =
          Except.error e) ↔
        ((403 : Nat) ≠ 200 ∨ true = false ∨ (some "tok" : Option String) = none ∨
          (some "tok" : Option String) = some ""))
      ∧ ((⟨["sid=1"], some "tok"⟩ : ClientState).token = some "tok" ∧
          "tok" ≠ "" ∧
          authHeader ⟨["sid=1"], some "tok"⟩ = some ("Bearer " ++ "tok") ∧
          (⟨["sid=1"], some "tok"⟩ : ClientState).cookies =
            (⟨["sid=1"], none⟩ : ClientState).cookies) :=
  ⟨(c6_amended ⟨[], none⟩ ⟨403, true, some "tok", none⟩).1,
   (c6_amended ⟨["sid=1"], none⟩ ⟨200, true, some "tok", none⟩).2.1 "tok"
     ⟨["sid=1"], some "tok"⟩ rfl⟩

/-- On success `getApiToken` only writes the token field of the state. -/
lemma getApiToken_ok_state (st : ClientState) (r : TokenResponse)
    (t : String) (st2 : ClientState)
    (h : getApiToken st r = Except.ok (t, st2)) :
    st2 = { st with token := r.token } := by
  rw [getApiToken] at h
  by_cases h1 : r.status ≠ 200
  · rw [if_pos h1] at h
    cases h
  · rw [if_neg h1] at h
    cases h2 : (!(r.success && tokenTruthy r.token)) with
    | true =>
      rw [if_pos h2] at h
      cases h
    | false =>
      rw [if_neg (by simp [h2])] at h
      injection h with h3
      exact (congrArg Prod.snd h3).symm

/-- Claim C7: with a session cookie supplied, no login-page GET and no
credential POST is ever issued during the run, and the cookie jar is
initialized to exactly the supplied cookie; in the mocked one-page
scenario (`total = 2`, `size = 100`, two embedded records) the run issues
one token request and one listing request and returns exactly the two
records in server order. -/
theorem c7_cookie_bypass {R : Type} (sv : Server R) (d ck : String)
    (u pw : Option String) :
    (∀ (fuel : Nat) (res : Except String (List R)) (log : List ReqKind)
        (st : ClientState),
        orchestrate ⟨some d, u, pw, some ck⟩ sv fuel = some (res, log, st) →
        ReqKind.loginPage ∉ log ∧ ReqKind.loginPost ∉ log ∧ st.cookies = [ck])
      ∧ (∀ (r1 r2 : R) (f : Nat) (tok : String),
          sv.listing 1 = ⟨some [r1, r2], some 2, some 100⟩ →
          sv.tokenResp = ⟨200, true, some tok, none⟩ → tok ≠ "" →
          orchestrate ⟨some d, u, pw, some ck⟩ sv (f + 1) =
            some (Except.ok [r1, r2], [ReqKind.apiToken, ReqKind.listing 1],
              ⟨[ck], some tok⟩)) := by
  constructor
  · intro fuel res log st hrun
    rw [orchestrate] at hrun
    simp only at hrun
    rw [orchestrateFrom] at hrun
    cases hg : getApiToken ⟨[ck], none⟩ sv.tokenResp with
    | error e =>
      rw [hg] at hrun
      simp only [Option.some.injEq, Prod.mk.injEq] at hrun
      obtain ⟨-, hlog, hst⟩ := hrun
      subst hlog
      subst hst
      refine ⟨by simp, by simp, rfl⟩
    | ok pr =>
      rw [hg] at hrun
      cases hf : fetchAllReservations sv.listing fuel with
      | none =>
        rw [hf] at hrun
        cases hrun
      | some out =>
        rw [hf] at hrun
        simp only [Option.some.injEq, Prod.mk.injEq] at hrun
        obtain ⟨-, hlog, hst⟩ := hrun
        subst hlog
        subst hst
        have hck : pr.2.cookies = [ck] := by
          have := getApiToken_ok_state ⟨[ck], none⟩ sv.tokenResp pr.1 pr.2
            (by rw [hg])
          rw [this]
        refine ⟨?_, ?_, hck⟩
        · simp [List.mem_append, List.mem_map]
        · simp [List.mem_append, List.mem_map]
  · intro r1 r2 f tok hl ht htok
    have hbne : (tok != "") = true := by simp [htok]
    rw [orchestrate]
    simp only
    rw [orchestrateFrom, ht]
    rw [show getApiToken ⟨[ck], none⟩ ⟨200, true, some tok, none⟩ =
        Except.ok (tok, ⟨[ck], some tok⟩) by
      rw [getApiToken]
      simp [tokenTruthy, hbne]]
    rw [show fetchAllReservations sv.listing (f + 1) =
        some ([r1, r2], [1]) by
      unfold fetchAllReservations
      rw [fetchLoop_step, hl]
      norm_num [nextTotalPages, truthyNat, ceilDiv]]
    simp

/-- Witness for C7 at a concrete mocked run. -/
theorem c7_witness :
    orchestrate ⟨some "acme", none, none, some "TrackOwner=xyz"⟩
        (⟨200, "", ⟨302, some "/owner/dashboard/", BodyData.jsonB⟩,
          ⟨200, true, some "tok", none⟩,
          fun _ => ⟨some [10, 20], some 2, some 100⟩⟩ : Server Nat) 1 =
      some (Except.ok [10, 20], [ReqKind.apiToken, ReqKind.listing 1],
        ⟨["TrackOwner=xyz"], some "tok"⟩) :=
  (c7_cookie_bypass
      (⟨200, "", ⟨302, some "/owner/dashboard/", BodyData.jsonB⟩,
        ⟨200, true, some "tok", none⟩,
        fun _ => ⟨some [10, 20], some 2, some 100⟩⟩ : Server Nat)
      "acme" "TrackOwner=xyz" none none).2 10 20 0 "tok" rfl rfl (by decide)

end TrackHS
